import Mathlib

/-!
Verification development for the MiV-Simulator repository slice consisting of
`src/miv_simulator/lfp.py` (approximate local-field-potential estimator) and
`src/miv_simulator/opsin/protocols.py` (optogenetic stimulation protocols).

Modelling conventions:
* Python floats are modelled exactly as rationals (`ℚ`); the claims under study
  concern control flow and exact algebraic identities, not rounding.
* Python raises exceptions where IEEE arithmetic would produce `inf`/`nan`:
  float division by zero raises `ZeroDivisionError`, `math.log` of a
  non-positive argument raises `ValueError`.  Fallible code is therefore
  embedded in `Except PyErr`.
* The transcendental functions `math.log`, `math.sqrt`, `np.cos` are passed as
  function parameters (`logF sqrtF cosF : ℚ → ℚ`): every property proved here
  holds for any interpretation of them, and the embedding applies them only
  where Python would (domain errors are checked before application).
-/

namespace MivSim

/-- Python runtime exceptions arising on the embedded code paths. -/
inductive PyErr
  | zeroDivisionError
  | valueError
  | typeError
  | indexError
  | keyError
  | notImplementedError
  | unboundLocalError
  | assertionError
  deriving DecidableEq, Repr

/-- Python float division: `a / b` raises `ZeroDivisionError` when `b == 0`. -/
def pydiv (a b : ℚ) : Except PyErr ℚ :=
  if b = 0 then .error .zeroDivisionError else .ok (a / b)

/-- Python `math.log`: raises `ValueError` (math domain error) for a
non-positive argument; otherwise applies the log interpretation `logF`. -/
def pylog (logF : ℚ → ℚ) (x : ℚ) : Except PyErr ℚ :=
  if x ≤ 0 then .error .valueError else .ok (logF x)

/-- The Python float constant `math.pi`, modelled by its decimal rendering. -/
def piF : ℚ := 3.141592653589793

/-- Euclidean distance between two 3-D points, `lfp.py` lines 152-161:
`math.sqrt((ax-bx)*(ax-bx) + (ay-by)*(ay-by) + (az-bz)*(az-bz))`, with
`math.sqrt` abstracted as `sqrtF` (its argument is a sum of squares, so the
Python call never raises here). -/
def dist3 (sqrtF : ℚ → ℚ) (a b : ℚ × ℚ × ℚ) : ℚ :=
  sqrtF ((a.1 - b.1) * (a.1 - b.1) + (a.2.1 - b.2.1) * (a.2.1 - b.2.1)
    + (a.2.2 - b.2.2) * (a.2.2 - b.2.2))

/-- `LFP.setup_lfp_coeffs`, `lfp.py` lines 151-173: the per-compartment
line-source weight before the distal scaling.  Inputs: electrode point
`epoint`, interpolated segment point `spt`, section start point `spt0`,
section length `L` and segment count `nseg` (so `l = L/nseg`), segment
membrane area `area` and resistivity `rho`.

```
l = float(sec.L) / sec.nseg
rd = sqrt((ex-sx)^2 + (ey-sy)^2 + (ez-sz)^2)
ld = sqrt((sx-sx0)^2 + (sy-sy0)^2 + (sz-sz0)^2)
sd = l - ld
k = 0.0001 * area * (rho / (4*pi*l))
      * abs(log((sqrt(ld*ld+rd*rd) - ld) / (sqrt(sd*sd+rd*rd) - sd)))
```

Python evaluates the product left to right, so the division `rho / (4*pi*l)`
is evaluated (and can raise) before the ratio and the log. -/
def setup_lfp_base (logF sqrtF : ℚ → ℚ) (area rho : ℚ)
    (epoint spt spt0 : ℚ × ℚ × ℚ) (L : ℚ) (nseg : ℕ) : Except PyErr ℚ := do
  let l ← pydiv L (nseg : ℚ)
  let rd := dist3 sqrtF epoint spt
  let ld := dist3 sqrtF spt spt0
  let sd := l - ld
  let c ← pydiv rho (4 * piF * l)
  let ratio ← pydiv (sqrtF (ld * ld + rd * rd) - ld) (sqrtF (sd * sd + rd * rd) - sd)
  let lg ← pylog logF ratio
  pure (1 / 10000 * area * c * |lg|)

/-- `LFP.setup_lfp_coeffs`, `lfp.py` lines 151-180: the weight finally stored
in `lfp_coeffs` for a compartment of a cell with LFP type `lfptype`
(1 = proximal, 2 = distal).  After computing the base weight `k`:

```
if math.isnan(k): k = 0.0        # in this exact-rational model no operation
                                 # yields NaN (Python raises instead, which the
                                 # Except layer captures), so the guard is the
                                 # identity on every .ok value
if lfp_types.x[i] == 2: k = (1.0 / self.fdst) * k
```
-/
def setup_lfp_coeff (logF sqrtF : ℚ → ℚ) (area rho fdst : ℚ)
    (epoint spt spt0 : ℚ × ℚ × ℚ) (L : ℚ) (nseg : ℕ) (lfptype : ℤ) :
    Except PyErr ℚ := do
  let k ← setup_lfp_base logF sqrtF area rho epoint spt spt0 L nseg
  if lfptype = 2 then
    let s ← pydiv 1 fdst
    pure (s * k)
  else
    pure k

/-- The per-cell information `LFP.setup_lfp` reads from the host simulator for
one candidate gid: whether the gid exists on this process, the `is_art() > 0`
and `is_reduced` flags (false when the attribute is absent), and the soma
position `(x3d(0), y3d(0), z3d(0))` of the first soma section. -/
structure CellInfo where
  gid_exists : Bool
  is_art : Bool
  is_reduced : Bool
  soma : ℚ × ℚ × ℚ
  deriving DecidableEq, Repr

/-- `LFP.setup_lfp`, `lfp.py` lines 202-250: the selection decision for one
candidate gid.  `none` means the cell contributes nothing (skipped, or
`lfptype = 0` so it is not appended to `lfp_ids`); `some 1` / `some 2` mean it
is recorded as proximal / distal.  `ransample` is the uniform draw
`ranlfp.repick()` made for this gid. -/
def setup_lfp_select (sqrtF : ℚ → ℚ) (epoint : ℚ × ℚ × ℚ)
    (maxEDist fdst ransample : ℚ) (cell : CellInfo) : Option ℤ :=
  if cell.gid_exists = false then none
  else if cell.is_art then none
  else if cell.is_reduced then none
  else if dist3 sqrtF cell.soma epoint < maxEDist then some 1
  else if ransample < fdst then some 2
  else none

/-- The accumulated output state of an `LFP` object: the parallel lists
`self.t` and `self.meanlfp` (`lfp.py` lines 88-89). -/
structure LFPState where
  t : List ℚ
  meanlfp : List ℚ
  deriving DecidableEq, Repr

/-- `LFP.__init__`, `lfp.py` lines 88-89: `self.meanlfp = []; self.t = []`. -/
def LFP_init : LFPState := ⟨[], []⟩

/-- `LFP.sample_lfp`, `lfp.py` lines 293-308, restricted to its effect on the
output lists: the globally reduced value `meanval` and the current time `tnow`
are appended, one each, exactly when this process has rank 0. -/
def sample_lfp (rank : ℕ) (meanval tnow : ℚ) (s : LFPState) : LFPState :=
  if rank = 0 then ⟨s.t ++ [tnow], s.meanlfp ++ [meanval]⟩ else s

/-- The eight protocol classes registered in the `protocols` OrderedDict of
`opsin/protocols.py` (lines 1096-1103).  Instance construction
(`protocols[name](params)`) is abstracted to the selected class. -/
inductive ProtClass
  | protStep
  | protDelta
  | protSinusoid
  | protChirp
  | protRamp
  | protRecovery
  | protShortPulse
  | protCustom
  deriving DecidableEq, Repr

/-- The `protocols` registry, `opsin/protocols.py` lines 1096-1103:
an ordered name-to-class map. -/
def protocols : List (String × ProtClass) :=
  [("step", .protStep),
   ("delta", .protDelta),
   ("sinusoid", .protSinusoid),
   ("chirp", .protChirp),
   ("ramp", .protRamp),
   ("recovery", .protRecovery),
   ("shortPulse", .protShortPulse),
   ("custom", .protCustom)]

/-- Modelled from the spec: `protList` is imported from outside `src/`
(it is not defined in `opsin/protocols.py`); the spec describes the exposed
registry as the named protocols `step`, `delta`, `sinusoid`, `chirp`, `ramp`,
`recovery`, `shortPulse`, `custom`, so `protList` is the list of those
names, matching the keys of `protocols`. -/
def protList : List String :=
  ["step", "delta", "sinusoid", "chirp", "ramp", "recovery", "shortPulse", "custom"]

/-- `selectProtocol`, `opsin/protocols.py` lines 1115-1122:

```
if protocol in protList:
    if params: return protocols[protocol](params)
    else:      return protocols[protocol](params=protParams[protocol])
else:
    raise NotImplementedError(protocol)
```

Both branches construct an instance of `protocols[protocol]`; the embedding
returns the class selected.  The `keyError` arm models a dict miss, which is
unreachable because `protList` lists exactly the registry keys. -/
def selectProtocol (protocol : String) : Except PyErr ProtClass :=
  if protocol ∈ protList then
    match protocols.lookup protocol with
    | some c => .ok c
    | none => .error .keyError
  else
    .error .notImplementedError

/-- The runtime type of the `cycles` parameter as dispatched on by
`Protocol.prepare` (`opsin/protocols.py` lines 80-91): a numpy scalar, a
sequence of numbers, a sequence of rows, a string (for which `np.isscalar`
is `True`), or any other type. -/
inductive CyclesParam
  | scalar (x : ℚ)
  | arr1 (xs : List ℚ)
  | arr2 (xss : List (List ℚ))
  | pystr (s : String)
  | other
  deriving Repr

/-- `Protocol.prepare`, `opsin/protocols.py` lines 80-93: normalization of the
`cycles` parameter to a 2-D array (a list of rows).

```
if np.isscalar(self.cycles):
    Dt_on = self.cycles
    if hasattr(self, 'Dt_total'):  # always true: Dt_total is a class attribute
        Dt_off = self.Dt_total - Dt_on - self.Dt_delay
    else:
        Dt_off = 0
    self.cycles = np.asarray([[Dt_on, Dt_off]])
elif isinstance(self.cycles, (list, tuple, np.ndarray)):
    if np.isscalar(self.cycles[0]):   # IndexError on an empty sequence
        self.cycles = [self.cycles]
else:
    raise TypeError('Unexpected type for cycles - expected a list or array!')
self.cycles = np.asarray(self.cycles)
```

A string is `np.isscalar`, so it enters the scalar branch and the subtraction
`self.Dt_total - Dt_on` raises `TypeError` there. -/
def prepare_cycles (c : CyclesParam) (Dt_total Dt_delay : ℚ) :
    Except PyErr (List (List ℚ)) :=
  match c with
  | .scalar x => .ok [[x, Dt_total - x - Dt_delay]]
  | .arr1 [] => .error .indexError
  | .arr1 (x :: xs) => .ok [x :: xs]
  | .arr2 [] => .error .indexError
  | .arr2 (r :: rs) => .ok (r :: rs)
  | .pystr _ => .error .typeError
  | .other => .error .typeError

/-- Modelled from the spec: `cycles2times` is imported from outside `src/`
(`miv_simulator.opsin.core`); the spec describes it as the
cycle-to-pulse-schedule expansion in which on/off cycles placed after delay
`d` expand to consecutive pulse intervals, each pulse starting where the
previous off phase ended, and the second component is the lapsed total
duration: a single pair `[[Dt_on, Dt_off]]` with delay `d` yields one pulse
`[d, d+Dt_on]` and total duration `d+Dt_on+Dt_off`. -/
def cycles2timesAux : List (ℚ × ℚ) → ℚ → List (ℚ × ℚ) × ℚ
  | [], lapsed => ([], lapsed)
  | c :: rest, lapsed =>
      let r := cycles2timesAux rest (lapsed + c.1 + c.2)
      ((lapsed, lapsed + c.1) :: r.1, r.2)

/-- Modelled from the spec: see `cycles2timesAux`.  Returns
`(pulses, Dt_total)` for the given cycles and delay. -/
def cycles2times (cycles : List (ℚ × ℚ)) (Dt_delay : ℚ) : List (ℚ × ℚ) × ℚ :=
  cycles2timesAux cycles Dt_delay

/-- Python 3 `round` to an integer (banker's rounding: ties go to the even
integer), as used in `int(round(x))`. -/
def pyround (q : ℚ) : ℤ :=
  let f := ⌊q⌋
  let r := q - f
  if r < 1 / 2 then f
  else if 1 / 2 < r then f + 1
  else if f % 2 = 0 then f else f + 1

/-- `np.linspace(a, b, n, endpoint=True)`: `n` evenly spaced points from `a`
to `b` inclusive. -/
def linspace (a b : ℚ) (n : ℕ) : List ℚ :=
  if n ≤ 1 then (List.range n).map (fun _ => a)
  else (List.range n).map (fun i : ℕ => a + (b - a) * (i : ℚ) / ((n : ℚ) - 1))

/-- `protSinusoid.genPulse`, `opsin/protocols.py` line 465: the sample times
`t = np.linspace(0.0, Dt_on, int(round((Dt_on*self.sr/1000))+1), endpoint=True)`
with `Dt_on = pEnd - pStart`.  (`Dt_on ≥ 0` in every reachable call, so the
`Int.toNat` coercion of the sample count is exact.) -/
def sinusoid_times (sr pStart pEnd : ℚ) : List ℚ :=
  linspace 0 (pEnd - pStart) ((pyround ((pEnd - pStart) * sr / 1000)).toNat + 1)

/-- `protSinusoid.genPulse`, `opsin/protocols.py` lines 462-471: the node list
`(pStart + t, phi0[run] + 0.5*phi*(1 ± cos(ws[run]*t)))` handed to the
interpolating spline constructor (`+` when `startOn`, `-` otherwise).
`phi0` and `w` are the per-run values `self.phi0[run]` and `self.ws[run]`;
`cosF` interprets `np.cos`. -/
def protSinusoid_genPulse (cosF : ℚ → ℚ) (startOn : Bool)
    (phi0 w sr phi pStart pEnd : ℚ) : List (ℚ × ℚ) :=
  let t := sinusoid_times sr pStart pEnd
  if startOn then
    (t.map (fun ti => pStart + ti)).zip
      (t.map (fun ti => phi0 + 1 / 2 * phi * (1 + cosF (w * ti))))
  else
    (t.map (fun ti => pStart + ti)).zip
      (t.map (fun ti => phi0 + 1 / 2 * phi * (1 - cosF (w * ti))))

/-- Modelled from the spec: scipy's `InterpolatedUnivariateSpline` is external
to this repository; per the spec the generated splines are interpolating
("sampled at its own generated time points equals ... at each sample"), so its
evaluation is modelled as: at a node abscissa return that node's ordinate, and
anywhere else return an unconstrained interpolant value `interp x` (which also
absorbs the `ext=1` zero-extrapolation). -/
def splineEval (nodes : List (ℚ × ℚ)) (interp : ℚ → ℚ) (x : ℚ) : ℚ :=
  match nodes with
  | [] => interp x
  | (xi, yi) :: rest => if x = xi then yi else splineEval rest interp x

/-- Diagnostics printed by `protDelta.finish`. -/
inductive Diagnostic
  | clampVoltageEqualsReversal
  | estimatedConductance (gbar_est : ℚ)
  deriving DecidableEq, Repr

/-- Outcome of a Python call: the messages printed, and `some e` when the
call terminates by raising `e` (rather than returning). -/
structure CallResult where
  messages : List Diagnostic
  raised : Option PyErr
  deriving DecidableEq, Repr

/-- `protDelta.finish`, `opsin/protocols.py` lines 830-843:

```
if PC.V is None: return
try:
    Gmax = PC.I_peak_ / (PC.V - RhO.E)
except ZeroDivisionError:
    print("The clamp voltage must be different to the reversal potential!")
gbar_est = Gmax * 1e6          # Gmax is unbound when the except branch ran:
                               # raises UnboundLocalError
if config.verbose > 0:
    print("Estimated maximum conductance (g) = ... uS")
```

Inputs: the clamp voltage `PC.V` (`none` models Python `None`), the peak
current `PC.I_peak_`, the reversal potential `RhO.E`, and `config.verbose`. -/
def protDelta_finish (V : Option ℚ) (I_peak E : ℚ) (verbose : ℕ) : CallResult :=
  match V with
  | none => ⟨[], none⟩
  | some v =>
    if v - E = 0 then
      ⟨[.clampVoltageEqualsReversal], some .unboundLocalError⟩
    else
      let Gmax := I_peak / (v - E)
      let gbar_est := Gmax * 1000000
      ⟨if verbose > 0 then [.estimatedConductance gbar_est] else [], none⟩

/-- One pulse iteration of `Protocol.getStimArray`, `opsin/protocols.py`
lines 189-204: starting from the accumulated samples and the running `end`
time, extend by the samples of this pulse (dropping the first, which
duplicates the previous boundary):

```
start = end
Dt_on, Dt_off = cycles[p, 0], cycles[p, 1]
end = start + Dt_on + Dt_off
nSteps = int(round(((end-start)/dt)+1))
tPulse = np.linspace(start, end, nSteps, endpoint=True)
phiPulse = phi_t(tPulse)
phi_tV = np.r_[phi_tV, phiPulse[1:]]
```
-/
def stimPulse (dt : ℚ) (phi_t : ℚ → ℚ) (onoff : ℚ × ℚ) (acc : List ℚ × ℚ) :
    Except PyErr (List ℚ × ℚ) := do
  let start := acc.2
  let stop := start + onoff.1 + onoff.2
  let q ← pydiv (stop - start) dt
  let nSteps := (pyround (q + 1)).toNat
  let tPulse := linspace start stop nSteps
  let phiPulse := tPulse.map phi_t
  pure (acc.1 ++ phiPulse.drop 1, stop)

/-- `Protocol.getStimArray`, `opsin/protocols.py` lines 170-206, before the
final clamp: the delay segment of zeros followed by the per-pulse samples.
`phi_ts` are the per-pulse spline evaluations (`self.phi_ts[run][phiInd][:]`,
abstracted as functions), `cycles` the on/off rows of `getRunCycles(run)`. -/
def getStimArrayRaw (phi_ts : List (ℚ → ℚ)) (cycles : List (ℚ × ℚ))
    (Dt_delay dt : ℚ) : Except PyErr (List ℚ) := do
  if phi_ts.length ≠ cycles.length then
    throw .assertionError
  let q ← pydiv (Dt_delay - 0) dt
  let nSteps := (pyround (q + 1)).toNat
  let t := linspace 0 Dt_delay nSteps
  let r ← (phi_ts.zip cycles).foldlM
    (fun acc pc => stimPulse dt pc.1 pc.2 acc)
    (t.map (fun _ => (0 : ℚ)), Dt_delay)
  pure r.1

/-- `Protocol.getStimArray`, `opsin/protocols.py` lines 205-206: the final
safeguard `phi_tV[np.ma.where(phi_tV < 0)] = 0` applied to the raw array
before it is returned. -/
def getStimArray (phi_ts : List (ℚ → ℚ)) (cycles : List (ℚ × ℚ))
    (Dt_delay dt : ℚ) : Except PyErr (List ℚ) := do
  let raw ← getStimArrayRaw phi_ts cycles Dt_delay dt
  pure (raw.map (fun x => if x < 0 then 0 else x))

/-- Computation rule for `Except` bind on a success value. -/
theorem ok_bind {α β ε : Type} (a : α) (f : α → Except ε β) :
    (Except.ok a : Except ε α) >>= f = f a := rfl

/-- Computation rule for `Except` bind on an error value. -/
theorem error_bind {α β ε : Type} (e : ε) (f : α → Except ε β) :
    (Except.error e : Except ε α) >>= f = Except.error e := rfl

/-- C1: at segment length `l = L/nseg = 0` the stored weight is claimed to be
`0` via the NaN guard, with no exception raised.  On the code, the guard is
never reached: Python evaluates `self.rho / (4.0 * math.pi * l)` first and
float division by zero raises `ZeroDivisionError`, which propagates out of
`setup_lfp_coeffs` (there is no try/except around it).  Concretely, with
`L = 0`, `nseg = 1`, `area = 1`, `rho = 333`, electrode at `(0,0,0)` and the
compartment at `(1,0,0)`, the computation ends in `ZeroDivisionError`. -/
theorem setup_lfp_coeff_zero_length :
    setup_lfp_coeff id id 1 333 (1 / 10) (0, 0, 0) (1, 0, 0) (1, 0, 0) 0 1 1
      = .error .zeroDivisionError := by
  unfold setup_lfp_coeff setup_lfp_base
  norm_num [pydiv, dist3, ok_bind, error_bind]

/-- C2: when the clamp voltage equals the reversal potential
(`PC.V = RhO.E = -70`), `protDelta.finish` catches the `ZeroDivisionError` and
prints the diagnostic, but the subsequent line `gbar_est = Gmax * 1e6` reads
the local `Gmax` that was never assigned, so `UnboundLocalError` is raised and
propagates out of `finish` - the call does not return normally. -/
theorem protDelta_finish_div_by_zero :
    protDelta_finish (some (-70)) 1 (-70) 0
      = ⟨[.clampVoltageEqualsReversal], some .unboundLocalError⟩ := by
  norm_num [protDelta_finish]

/-- C4: for a single on/off pair `[[Dt_on, Dt_off]]` with delay `d`,
`Protocol.prepare` leaves the cycles array as that one row, and the
cycle-to-pulse-schedule expansion `cycles2times` yields exactly one pulse
interval `[d, d + Dt_on]` and total duration `d + Dt_on + Dt_off`. -/
theorem prepare_single_cycle (Dt_on Dt_off d T : ℚ) :
    prepare_cycles (.arr2 [[Dt_on, Dt_off]]) T d = .ok [[Dt_on, Dt_off]]
  ∧ cycles2times [(Dt_on, Dt_off)] d = ([(d, d + Dt_on)], d + Dt_on + Dt_off) :=
  ⟨rfl, rfl⟩

/-- C8 counterexample: an empty list (or empty tuple/array) is a
list/tuple/array value of `cycles`, yet `Protocol.prepare` raises on it - the
branch `np.isscalar(self.cycles[0])` indexes element 0 of the empty sequence
and `IndexError` propagates - so the claim that no list/tuple/array cycles
value raises is false. -/
theorem prepare_cycles_empty_raises :
    prepare_cycles (.arr1 []) 0 0 = .error .indexError := rfl

/-- C8 (amended): a cycles value that is neither a numpy scalar nor a
list/tuple/array raises `TypeError` (a string also ends in `TypeError`,
through the arithmetic of the scalar branch); a scalar normalizes to the
single row `[[Dt_on, Dt_total - Dt_on - Dt_delay]]`; a nonempty sequence
whose first element is scalar is wrapped as one row; a nonempty sequence of
rows is kept as-is. -/
theorem prepare_cycles_type_dispatch (c : CyclesParam) (T d : ℚ) :
    ((c = .other ∨ ∃ s, c = .pystr s) → prepare_cycles c T d = .error .typeError)
  ∧ (∀ x, c = .scalar x → prepare_cycles c T d = .ok [[x, T - x - d]])
  ∧ (∀ x xs, c = .arr1 (x :: xs) → prepare_cycles c T d = .ok [x :: xs])
  ∧ (∀ r rs, c = .arr2 (r :: rs) → prepare_cycles c T d = .ok (r :: rs)) := by
  refine ⟨fun h => ?_, fun x hx => ?_, fun x xs hx => ?_, fun r rs hr => ?_⟩
  · rcases h with h | ⟨s, h⟩ <;> subst h <;> rfl
  · subst hx; rfl
  · subst hx; rfl
  · subst hr; rfl

/-- Witness for `prepare_cycles_type_dispatch` at concrete inputs: a
non-sequence value raises `TypeError`, and the scalar `5` with
`Dt_total = 7`, `Dt_delay = 1` normalizes to `[[5, 7 - 5 - 1]]`. -/
theorem prepare_cycles_type_dispatch_witness :
    prepare_cycles .other 0 0 = .error .typeError
  ∧ prepare_cycles (.scalar 5) 7 1 = .ok [[5, 7 - 5 - 1]] :=
  ⟨(prepare_cycles_type_dispatch .other 0 0).1 (Or.inl rfl),
   (prepare_cycles_type_dispatch (.scalar 5) 7 1).2.1 5 rfl⟩

/-- C9: the output sequences start empty at construction, and each invocation
of `sample_lfp` preserves `len(t) = len(meanlfp)`; on the rank-0 process it
appends exactly one element to each list. -/
theorem sample_lfp_parallel :
    (LFP_init.t = [] ∧ LFP_init.meanlfp = [])
  ∧ ∀ rank meanval tnow s, s.t.length = s.meanlfp.length →
      (sample_lfp rank meanval tnow s).t.length
          = (sample_lfp rank meanval tnow s).meanlfp.length
      ∧ (rank = 0 →
          (sample_lfp rank meanval tnow s).t.length = s.t.length + 1
          ∧ (sample_lfp rank meanval tnow s).meanlfp.length
              = s.meanlfp.length + 1) := by
  refine ⟨⟨rfl, rfl⟩, ?_⟩
  intro rank meanval tnow s h
  unfold sample_lfp
  by_cases hr : rank = 0 <;> simp [hr, h]

/-- Witness for `sample_lfp_parallel`: one rank-0 invocation on the freshly
constructed state keeps the two lists the same length. -/
theorem sample_lfp_parallel_witness :
    (sample_lfp 0 1 2 LFP_init).t.length
      = (sample_lfp 0 1 2 LFP_init).meanlfp.length :=
  (sample_lfp_parallel.2 0 1 2 LFP_init rfl).1

/-- C3: `selectProtocol` raises `NotImplementedError` exactly on names outside
the supported registry, and on every supported name returns (an instance of)
the corresponding protocol class from the `protocols` registry. -/
theorem selectProtocol_spec (name : String) :
    (name ∉ protList → selectProtocol name = .error .notImplementedError)
  ∧ (∀ c, (name, c) ∈ protocols → selectProtocol name = .ok c) := by
  constructor
  · intro h
    simp [selectProtocol, h]
  · intro c hc
    simp only [protocols, List.mem_cons, List.not_mem_nil, or_false,
      Prod.mk.injEq] at hc
    rcases hc with ⟨h1, h2⟩ | ⟨h1, h2⟩ | ⟨h1, h2⟩ | ⟨h1, h2⟩ | ⟨h1, h2⟩ |
      ⟨h1, h2⟩ | ⟨h1, h2⟩ | ⟨h1, h2⟩ <;> subst h1 <;> subst h2 <;> rfl

/-- Witness for `selectProtocol_spec`: the unsupported name `"foo"` raises
`NotImplementedError`, and the supported name `"sinusoid"` selects
`protSinusoid`. -/
theorem selectProtocol_spec_witness :
    selectProtocol "foo" = .error .notImplementedError
  ∧ selectProtocol "sinusoid" = .ok .protSinusoid :=
  ⟨(selectProtocol_spec "foo").1 (by decide),
   (selectProtocol_spec "sinusoid").2 .protSinusoid (by simp [protocols])⟩

/-- C7: for a candidate gid owned by this process (`gid_exists`), the
selection of `LFP.setup_lfp` is characterized by: proximal (`some 1`) exactly
when the cell is neither artificial nor reduced and its soma lies strictly
within `maxEDist` of the electrode; distal (`some 2`) exactly when it is
neither artificial nor reduced, the soma is at or beyond `maxEDist`, and the
cell's uniform draw is below `fdst`; and artificial or reduced cells are
always skipped. -/
theorem setup_lfp_select_spec (sqrtF : ℚ → ℚ) (epoint : ℚ × ℚ × ℚ)
    (maxEDist fdst ransample : ℚ) (cell : CellInfo)
    (hex : cell.gid_exists = true) :
    (setup_lfp_select sqrtF epoint maxEDist fdst ransample cell = some 1 ↔
      cell.is_art = false ∧ cell.is_reduced = false ∧
        dist3 sqrtF cell.soma epoint < maxEDist)
  ∧ (setup_lfp_select sqrtF epoint maxEDist fdst ransample cell = some 2 ↔
      cell.is_art = false ∧ cell.is_reduced = false ∧
        ¬ dist3 sqrtF cell.soma epoint < maxEDist ∧ ransample < fdst)
  ∧ ((cell.is_art = true ∨ cell.is_reduced = true) →
      setup_lfp_select sqrtF epoint maxEDist fdst ransample cell = none) := by
  unfold setup_lfp_select
  rw [hex]
  by_cases ha : cell.is_art <;> by_cases hr : cell.is_reduced <;>
    by_cases hd : dist3 sqrtF cell.soma epoint < maxEDist <;>
    by_cases hs : ransample < fdst <;>
    simp [ha, hr, hd, hs]

/-- Witness for `setup_lfp_select_spec`: a live biophysical cell with soma at
distance 1 from the electrode and `maxEDist = 2` is selected as proximal. -/
theorem setup_lfp_select_spec_witness :
    setup_lfp_select id (1, 0, 0) 2 (1 / 10) 0
        ⟨true, false, false, (0, 0, 0)⟩ = some 1 :=
  (setup_lfp_select_spec id (1, 0, 0) 2 (1 / 10) 0
      ⟨true, false, false, (0, 0, 0)⟩ rfl).1.mpr
    ⟨rfl, rfl, by norm_num [dist3]⟩

/-- C6: for an identically positioned compartment, whenever the proximal
(type 1) computation stores the base coefficient `k`, the distal (type 2)
computation stores `(1/fdst) * k`; the proximal coefficient itself is the
unscaled base value (the type-1 path returns `setup_lfp_base` unchanged). -/
theorem setup_lfp_coeff_distal_scaling (logF sqrtF : ℚ → ℚ)
    (area rho fdst : ℚ) (epoint spt spt0 : ℚ × ℚ × ℚ) (L : ℚ) (nseg : ℕ)
    (k : ℚ) (hf : fdst ≠ 0)
    (h1 : setup_lfp_coeff logF sqrtF area rho fdst epoint spt spt0 L nseg 1
            = .ok k) :
    setup_lfp_coeff logF sqrtF area rho fdst epoint spt spt0 L nseg 2
        = .ok ((1 / fdst) * k)
  ∧ setup_lfp_base logF sqrtF area rho epoint spt spt0 L nseg = .ok k := by
  unfold setup_lfp_coeff at h1 ⊢
  cases hb : setup_lfp_base logF sqrtF area rho epoint spt spt0 L nseg with
  | error e =>
    rw [hb, error_bind] at h1
    exact absurd h1 (by simp)
  | ok kb =>
    rw [hb, ok_bind] at h1
    rw [ok_bind]
    norm_num [pure, Except.pure] at h1
    subst h1
    norm_num [pydiv, hf, ok_bind, pure, Except.pure]

/-- Witness for `setup_lfp_coeff_distal_scaling`: concrete geometry (electrode
at the origin, segment point `(1,0,0)`, section start `(2,0,0)`, `L = 3`,
`nseg = 1`, `area = rho = 1`) with `fdst = 1/10` and `logF = sqrtF = id`;
the distal weight is ten times the proximal one. -/
theorem setup_lfp_coeff_distal_scaling_witness :
    setup_lfp_coeff id id 1 1 (1 / 10) (0, 0, 0) (1, 0, 0) (2, 0, 0) 3 1 2
        = .ok ((1 / (1 / 10)) *
            (1 / 10000 * 1 * (1 / (4 * piF * 3)) * |(1 : ℚ) / 3|))
  ∧ setup_lfp_base id id 1 1 (0, 0, 0) (1, 0, 0) (2, 0, 0) 3 1
        = .ok (1 / 10000 * 1 * (1 / (4 * piF * 3)) * |(1 : ℚ) / 3|) :=
  setup_lfp_coeff_distal_scaling id id 1 1 (1 / 10) (0, 0, 0) (1, 0, 0)
    (2, 0, 0) 3 1 _ (by norm_num)
    (by
      unfold setup_lfp_coeff setup_lfp_base
      norm_num [pydiv, pylog, dist3, piF, ok_bind, error_bind, pure,
        Except.pure])

/-- C10: every entry of a stimulus array successfully returned by
`Protocol.getStimArray` is nonnegative - the final safeguard clamps negative
interpolated intensities to zero. -/
theorem getStimArray_nonneg (phi_ts : List (ℚ → ℚ)) (cycles : List (ℚ × ℚ))
    (Dt_delay dt : ℚ) (arr : List ℚ)
    (h : getStimArray phi_ts cycles Dt_delay dt = .ok arr) :
    ∀ x ∈ arr, 0 ≤ x := by
  unfold getStimArray at h
  cases hr : getStimArrayRaw phi_ts cycles Dt_delay dt with
  | error e =>
    rw [hr, error_bind] at h
    exact absurd h (by simp)
  | ok raw =>
    rw [hr, ok_bind] at h
    simp only [pure, Except.pure, Except.ok.injEq] at h
    subst h
    intro x hx
    simp only [List.mem_map] at hx
    obtain ⟨y, _, hxy⟩ := hx
    subst hxy
    by_cases hy : y < 0 <;> simp [hy]
    linarith

/-- Witness for `getStimArray_nonneg`: a spline that is constantly `-5` over
a single `(1, 1)` on/off cycle with delay 1 and `dt = 1` produces the
all-zero clamped array `[0, 0, 0, 0]`, whose entries are nonnegative. -/
theorem getStimArray_nonneg_witness :
    getStimArray [fun _ => (-5 : ℚ)] [(1, 1)] 1 1 = .ok [0, 0, 0, 0]
  ∧ (0 : ℚ) ≤ 0 := by
  have h2 : (pyround (2 : ℚ)).toNat = 2 := by
    norm_num [pyround]
    rfl
  have h3 : (pyround (3 : ℚ)).toNat = 3 := by
    norm_num [pyround]
    rfl
  have hl2 : linspace 0 1 2 = [0, 1] := by
    norm_num [linspace, List.range_succ]
  have hl3 : linspace 1 3 3 = [1, 2, 3] := by
    norm_num [linspace, List.range_succ]
  have hraw : getStimArrayRaw [fun _ => (-5 : ℚ)] [(1, 1)] 1 1
      = .ok [0, 0, -5, -5] := by
    unfold getStimArrayRaw
    norm_num [pydiv, ok_bind, List.foldlM, stimPulse, pure, Except.pure,
      h2, h3, hl2, hl3]
    rfl
  have harr : getStimArray [fun _ => (-5 : ℚ)] [(1, 1)] 1 1
      = .ok [0, 0, 0, 0] := by
    unfold getStimArray
    rw [hraw, ok_bind]
    norm_num [pure, Except.pure]
  exact ⟨harr,
    getStimArray_nonneg [fun _ => (-5 : ℚ)] [(1, 1)] 1 1 [0, 0, 0, 0] harr
      0 (by simp)⟩

/-- `linspace` always produces exactly `n` samples. -/
theorem linspace_length (a b : ℚ) (n : ℕ) : (linspace a b n).length = n := by
  unfold linspace
  split <;> rw [List.length_map, List.length_range]

/-- An interpolating spline built from nodes `(f a, g a)` for the sample
points `a` of a list evaluates, at the abscissa of any of its nodes, to that
node's ordinate - provided equal abscissas carry equal ordinates. -/
theorem splineEval_nodes (t : List ℚ) (f g interp : ℚ → ℚ)
    (hfg : ∀ a b, f a = f b → g a = g b) :
    ∀ i (h : i < t.length),
      splineEval ((t.map f).zip (t.map g)) interp (f (t.get ⟨i, h⟩))
        = g (t.get ⟨i, h⟩) := by
  induction t with
  | nil =>
    intro i h
    exact absurd h (by simp)
  | cons a t ih =>
    intro i h
    cases i with
    | zero =>
      simp [splineEval]
    | succ j =>
      have hj : j < t.length := by simpa using h
      have hget : (a :: t).get ⟨j + 1, h⟩ = t.get ⟨j, hj⟩ := rfl
      rw [hget]
      simp only [List.map_cons, List.zip_cons_cons, splineEval]
      by_cases he : f (t.get ⟨j, hj⟩) = f a
      · rw [if_pos he]
        exact (hfg _ _ he).symm
      · rw [if_neg he]
        exact ih j hj

/-- C5: the sinusoid waveform, evaluated at each of its own generated sample
time points `pStart + t_i`, equals `phi0 + 0.5*phi*(1 - cos(w*t_i))` when
`startOn` is false and `phi0 + 0.5*phi*(1 + cos(w*t_i))` when `startOn` is
true: the interpolating spline built by `protSinusoid.genPulse` passes
through every sample. -/
theorem protSinusoid_genPulse_samples (cosF interp : ℚ → ℚ) (startOn : Bool)
    (phi0 w sr phi pStart pEnd : ℚ) (i : ℕ)
    (h : i < (sinusoid_times sr pStart pEnd).length) :
    splineEval (protSinusoid_genPulse cosF startOn phi0 w sr phi pStart pEnd)
        interp (pStart + (sinusoid_times sr pStart pEnd).get ⟨i, h⟩)
      = phi0 + 1 / 2 * phi *
          (if startOn then
            1 + cosF (w * (sinusoid_times sr pStart pEnd).get ⟨i, h⟩)
          else
            1 - cosF (w * (sinusoid_times sr pStart pEnd).get ⟨i, h⟩)) := by
  have hcancel : ∀ g' : ℚ → ℚ, ∀ a b : ℚ, pStart + a = pStart + b → g' a = g' b :=
    fun g' a b hab => by rw [add_left_cancel hab]
  cases startOn with
  | false =>
    simp only [protSinusoid_genPulse, Bool.false_eq_true, if_false]
    exact splineEval_nodes (sinusoid_times sr pStart pEnd)
      (fun ti => pStart + ti)
      (fun ti => phi0 + 1 / 2 * phi * (1 - cosF (w * ti))) interp
      (hcancel _) i h
  | true =>
    simp only [protSinusoid_genPulse, if_true]
    exact splineEval_nodes (sinusoid_times sr pStart pEnd)
      (fun ti => pStart + ti)
      (fun ti => phi0 + 1 / 2 * phi * (1 + cosF (w * ti))) interp
      (hcancel _) i h

/-- Witness for `protSinusoid_genPulse_samples`: with `sr = 2000` and the
pulse `[0, 1]` the generated sample times are `[0, 1/2, 1]`; at sample index
1 the spline with `startOn = false`, `phi0 = 0`, `w = 2`, `phi = 10` takes
the value `0 + 1/2 * 10 * (1 - cos(2 * (1/2)))`. -/
theorem protSinusoid_genPulse_samples_witness :
    splineEval (protSinusoid_genPulse id false 0 2 2000 10 0 1) id
        (0 + (sinusoid_times 2000 0 1).get ⟨1, by
          show 1 < (sinusoid_times 2000 0 1).length
          have h2 : (pyround (2 : ℚ)).toNat = 2 := by
            norm_num [pyround]
            rfl
          norm_num [sinusoid_times, h2, linspace_length]⟩)
      = 0 + 1 / 2 * 10 *
          (1 - id (2 * (sinusoid_times 2000 0 1).get ⟨1, by
            show 1 < (sinusoid_times 2000 0 1).length
            have h2 : (pyround (2 : ℚ)).toNat = 2 := by
              norm_num [pyround]
              rfl
            norm_num [sinusoid_times, h2, linspace_length]⟩)) :=
  protSinusoid_genPulse_samples id id false 0 2 2000 10 0 1 1 (by
    show 1 < (sinusoid_times 2000 0 1).length
    have h2 : (pyround (2 : ℚ)).toNat = 2 := by
      norm_num [pyround]
      rfl
    norm_num [sinusoid_times, h2, linspace_length])

end MivSim
